import Mathlib

/-!
Verification of the resilient-relay service: a deduplication (idempotency)
store with TTL expiry, a bounded FIFO admission queue, a retry executor with
capped exponential backoff and full jitter, and the relay orchestrator that
sequences them per request.

The definitions below are a shallow embedding of the TypeScript sources:
* `src/core/idempotency-store.ts` (IdempotencyStore)
* the bounded queue module (BoundedQueue)
* the retry manager (retryWithBackoff, calculateDelayWithJitter)
* the HTTP server's POST /relay handler (relay orchestration).

Wall-clock time (`Date.now()`) is passed explicitly as a `now : Nat`
parameter to each operation that reads the clock.  The JavaScript `Map` is
embedded as an association list with `Map.set` semantics (replace in place
when the key exists, append otherwise).
-/

namespace ResilientRelay

variable {α : Type}

/-- Status of an idempotency entry (`IdempotencyStatus` in the source). -/
inductive IdempotencyStatus where
  | in_flight
  | completed
deriving DecidableEq, Repr

/-- Cached idempotency data (`IdempotencyData<T>` in the source).
`data` and `httpStatusCode` are optional: they are only present when the
record is completed. `cachedTime` is the first-seen timestamp used for TTL. -/
structure IdempotencyData (α : Type) where
  data : Option α
  cachedTime : Nat
  httpStatusCode : Option Nat
  status : IdempotencyStatus
deriving DecidableEq, Repr

/-- The IdempotencyStore's backing `Map<string, IdempotencyData>`, embedded
as an association list whose keys are unique in any well-formed state. -/
abbrev Store (α : Type) := List (String × IdempotencyData α)

/-- Keys of the store, in insertion order. -/
def storeKeys (s : Store α) : List String := s.map Prod.fst

/-- Well-formedness of the `Map` embedding: keys are pairwise distinct. -/
def storeWF (s : Store α) : Prop := (storeKeys s).Nodup

/-- Raw `Map.get`: first entry with the given key, if any. -/
def storeLookup : Store α → String → Option (IdempotencyData α)
  | [], _ => none
  | e :: rest, k => if e.1 = k then some e.2 else storeLookup rest k

/-- Raw `Map.set`: replace the entry in place when the key exists, append
a new entry otherwise. Embeds `IdempotencyStore.set`. -/
def storeSet : Store α → String → IdempotencyData α → Store α
  | [], k, d => [(k, d)]
  | e :: rest, k, d => if e.1 = k then (k, d) :: rest else e :: storeSet rest k d

/-- Raw `Map.delete`: remove the entry with the given key. -/
def storeDelete : Store α → String → Store α
  | [], _ => []
  | e :: rest, k => if e.1 = k then storeDelete rest k else e :: storeDelete rest k

/-- Expiry predicate of the store: `Date.now() > cachedTime + ttlMs`. -/
def isExpired (now ttl : Nat) (d : IdempotencyData α) : Bool :=
  decide (now > d.cachedTime + ttl)

/-- `IdempotencyStore.get`: `null` when absent; when the entry has expired,
delete it as a side effect and report `null`; otherwise return the entry.
The returned pair is (result, store after the call). -/
def storeGet (now ttl : Nat) (s : Store α) (k : String) :
    Option (IdempotencyData α) × Store α :=
  match storeLookup s k with
  | none => (none, s)
  | some d =>
    if isExpired now ttl d then (none, storeDelete s k)
    else (some d, s)

/-- `IdempotencyStore.markInFlight`: unconditionally store a fresh
`in_flight` record whose `cachedTime` is the current time. -/
def markInFlight (now : Nat) (s : Store α) (k : String) : Store α :=
  storeSet s k { data := none, cachedTime := now, httpStatusCode := none,
                 status := .in_flight }

/-- `IdempotencyStore.markCompleted`: if the raw entry exists, update it in
place preserving `cachedTime`; otherwise (defensive path) create a new
completed record with `cachedTime = now`. -/
def markCompleted (now : Nat) (s : Store α) (k : String) (statusCode : Nat)
    (d : α) : Store α :=
  match storeLookup s k with
  | none =>
    storeSet s k { data := some d, cachedTime := now,
                   httpStatusCode := some statusCode, status := .completed }
  | some old =>
    storeSet s k { old with
      data := some d, status := .completed, httpStatusCode := some statusCode }

/-- `IdempotencyStore.cleanup`: remove every expired entry. -/
def storeCleanup (now ttl : Nat) : Store α → Store α
  | [] => []
  | e :: rest =>
    if isExpired now ttl e.2 then storeCleanup now ttl rest
    else e :: storeCleanup now ttl rest

/-- `IdempotencyStore.size`: number of stored entries (expired or not). -/
def storeSize (s : Store α) : Nat := s.length

/-- Number of entries of the store that are unexpired at time `now`. -/
def countLive (now ttl : Nat) : Store α → Nat
  | [] => 0
  | e :: rest =>
    if isExpired now ttl e.2 then countLive now ttl rest
    else countLive now ttl rest + 1

/-- Number of entries of the store that have expired at time `now`. -/
def countExpired (now ttl : Nat) : Store α → Nat
  | [] => 0
  | e :: rest =>
    if isExpired now ttl e.2 then countExpired now ttl rest + 1
    else countExpired now ttl rest

/-- One public mutating operation of the IdempotencyStore. -/
inductive StoreOp (α : Type) where
  | get (now ttl : Nat) (key : String)
  | set (key : String) (d : IdempotencyData α)
  | markInFlight (now : Nat) (key : String)
  | markCompleted (now : Nat) (key : String) (statusCode : Nat) (d : α)
  | cleanup (now ttl : Nat)

/-- State transition of the store under one operation. -/
def applyStoreOp (op : StoreOp α) (s : Store α) : Store α :=
  match op with
  | .get now ttl k => (storeGet now ttl s k).2
  | .set k d => storeSet s k d
  | .markInFlight now k => markInFlight now s k
  | .markCompleted now k c d => markCompleted now s k c d
  | .cleanup now ttl => storeCleanup now ttl s

/-- Operations that write a caller-chosen record over whatever is present:
`set` stores arbitrary data and `markInFlight` unconditionally recreates the
record. The remaining operations only complete, preserve or remove records. -/
def StoreOp.isOverwrite : StoreOp α → Bool
  | .set _ _ => true
  | .markInFlight _ _ => true
  | _ => false

/-- Work item of the bounded queue (`QueueItem<T>` in the source):
payload plus the enqueue timestamp recorded for observability. -/
structure QueueItem (α : Type) where
  data : α
  enqueuedAt : Nat
deriving DecidableEq, Repr

/-- BoundedQueue: a list of items (front at the head) and a fixed capacity. -/
structure BoundedQueue (α : Type) where
  queue : List (QueueItem α)
  capacity : Nat
deriving DecidableEq, Repr

/-- The BoundedQueue constructor: throws when `capacity <= 0`, otherwise
starts with an empty list. -/
def mkBoundedQueue (α : Type) (capacity : Nat) : Except String (BoundedQueue α) :=
  if capacity ≤ 0 then .error "Queue capacity must be positive"
  else .ok { queue := [], capacity := capacity }

/-- `BoundedQueue.isFull`: `queue.length >= capacity`. -/
def BoundedQueue.isFull (q : BoundedQueue α) : Bool :=
  decide (q.queue.length ≥ q.capacity)

/-- `BoundedQueue.isEmpty`: `queue.length === 0`. -/
def BoundedQueue.isEmpty (q : BoundedQueue α) : Bool :=
  decide (q.queue.length = 0)

/-- `BoundedQueue.enqueue`: reject (returning `false`) when full, otherwise
push the item at the tail. The pair is (accepted, queue after the call). -/
def BoundedQueue.enqueue (q : BoundedQueue α) (now : Nat) (data : α) :
    Bool × BoundedQueue α :=
  if q.isFull then (false, q)
  else (true, { q with queue := q.queue ++ [{ data := data, enqueuedAt := now }] })

/-- `BoundedQueue.dequeue`: remove and return the front item (FIFO), `null`
when empty. The pair is (result, queue after the call). -/
def BoundedQueue.dequeue (q : BoundedQueue α) :
    Option (QueueItem α) × BoundedQueue α :=
  match q.queue with
  | [] => (none, q)
  | x :: rest => (some x, { q with queue := rest })

/-- `BoundedQueue.size`: current number of items. -/
def BoundedQueue.size (q : BoundedQueue α) : Nat := q.queue.length

/-- `BoundedQueue.getCapacity`. -/
def BoundedQueue.getCapacity (q : BoundedQueue α) : Nat := q.capacity

/-- `BoundedQueue.getUtilization`: `(queue.length / capacity) * 100`,
computed in exact rational arithmetic. -/
def BoundedQueue.getUtilization (q : BoundedQueue α) : ℚ :=
  ((q.queue.length : ℚ) / (q.capacity : ℚ)) * 100

/-- Enqueue a list of payloads one at a time (at one timestamp), returning
the list of per-call results and the final queue. -/
def enqueueList (now : Nat) (q : BoundedQueue α) : List α → List Bool × BoundedQueue α
  | [] => ([], q)
  | x :: xs =>
    let r := q.enqueue now x
    let rest := enqueueList now r.2 xs
    (r.1 :: rest.1, rest.2)

/-- Perform `n` successive dequeue calls, collecting the returned items and
stopping early if the queue reports empty. -/
def dequeueN : Nat → BoundedQueue α → List (QueueItem α)
  | 0, _ => []
  | n + 1, q =>
    match q.dequeue with
    | (none, _) => []
    | (some x, q2) => x :: dequeueN n q2

/-- Result of the retry executor (`RetryResult<T>` in the source).
`totalTimeMs` is wall-clock instrumentation and is not modelled. -/
structure RetryResult (α : Type) where
  success : Bool
  data : Option α
  error : Option String
  attempts : Nat
deriving DecidableEq, Repr

/-- Loop body of `retryWithBackoff`. The wrapped operation is embedded as a
function from the attempt index to its outcome for that invocation (a
timeout surfaces as an `error`, like any other failure). On failure at
`attempt < maxRetries` the code sleeps and retries; on failure at the last
attempt it returns `success: false` with the last error and
`maxRetries + 1` attempts. -/
def retryLoop (fn : Nat → Except String α) (maxRetries attempt : Nat) :
    RetryResult α :=
  match fn attempt with
  | .ok r => { success := true, data := some r, error := none, attempts := attempt + 1 }
  | .error e =>
    if attempt < maxRetries then retryLoop fn maxRetries (attempt + 1)
    else { success := false, data := none, error := some e, attempts := maxRetries + 1 }
termination_by maxRetries - attempt

/-- `retryWithBackoff`: run the loop from attempt index 0. -/
def retryWithBackoff (fn : Nat → Except String α) (maxRetries : Nat) :
    RetryResult α :=
  retryLoop fn maxRetries 0

/-- Indices at which the loop of `retryWithBackoff` invokes the wrapped
operation, in order of invocation. -/
def retryTrace (fn : Nat → Except String α) (maxRetries attempt : Nat) :
    List Nat :=
  match fn attempt with
  | .ok _ => [attempt]
  | .error _ =>
    if attempt < maxRetries then attempt :: retryTrace fn maxRetries (attempt + 1)
    else [attempt]
termination_by maxRetries - attempt

/-- `calculateDelayWithJitter`: capped exponential backoff with full jitter.
The float arithmetic of the source is embedded over the exact rationals;
`rand` is the value drawn by `Math.random()` (in `[0, 1)`), and
`Math.floor` is the integer floor. -/
def calculateDelayWithJitter (attempt : Nat) (initialDelayMs maxDelayMs : ℚ)
    (rand : ℚ) : ℤ :=
  let exponentialDelay := initialDelayMs * 2 ^ attempt
  let cappedDelay := min exponentialDelay maxDelayMs
  let jitteredDelay := rand * cappedDelay
  ⌊jitteredDelay⌋

/-- JSON body of a relay response (`RelayResponse` in the source, with the
wall-clock `processingTimeMs` metadata not modelled). -/
structure RelayBody (α : Type) where
  success : Bool
  data : Option α
  error : Option String
  attempts : Option Nat
deriving DecidableEq, Repr

/-- Incoming relay request: payload plus the optional idempotency key. -/
structure RelayRequest (α : Type) where
  data : α
  idempotencyKey : Option String
deriving DecidableEq, Repr

/-- Observable outcome of one POST /relay invocation: the HTTP status and
body sent, the queue and idempotency store after the handler returns, how
many downstream attempts were made, and whether the request was enqueued. -/
structure RelayOutcome (α : Type) where
  statusCode : Nat
  body : Option (RelayBody α)
  queue : BoundedQueue (RelayRequest α)
  store : Store (RelayBody α)
  downstreamAttempts : Nat
  enqueued : Bool
deriving DecidableEq, Repr

/-- Body of the 409 duplicate-in-progress response. -/
def conflictBody : RelayBody α :=
  { success := false, data := none,
    error := some "Request with this idempotency key is already being processed",
    attempts := none }

/-- Body of the 429 queue-full response. -/
def overloadBody : RelayBody α :=
  { success := false, data := none,
    error := some "Service overloaded - queue full", attempts := none }

/-- Body of the 500 response produced when dequeue right after a successful
enqueue unexpectedly finds the queue empty (the handler's thrown error). -/
def internalBody : RelayBody α :=
  { success := false, data := none,
    error := some "Failed to dequeue - this should never happen",
    attempts := none }

/-- Steps 2-5 of the POST /relay handler, after the idempotency check:
enqueue (429 when rejected), immediately dequeue, drive the downstream call
through `retryWithBackoff`, then on success record the response body via
`markCompleted` (status 200) and on failure answer 502 without touching the
store. `fnOf payload i` is the outcome of the `i`-th downstream invocation
for that payload (a failed downstream result is thrown, hence `error`). -/
def relayProcess (now maxRetries : Nat) (key : Option String) (payload : α)
    (fnOf : α → Nat → Except String α) (q : BoundedQueue (RelayRequest α))
    (store : Store (RelayBody α)) : RelayOutcome α :=
  let eq1 := q.enqueue now { data := payload, idempotencyKey := key }
  if eq1.1 = false then
    { statusCode := 429, body := some overloadBody, queue := eq1.2,
      store := store, downstreamAttempts := 0, enqueued := false }
  else
    match eq1.2.dequeue with
    | (none, q2) =>
      { statusCode := 500, body := some internalBody, queue := q2,
        store := store, downstreamAttempts := 0, enqueued := true }
    | (some item, q2) =>
      let r := retryWithBackoff (fnOf item.data.data) maxRetries
      if r.success then
        let body : RelayBody α :=
          { success := true, data := r.data, error := none,
            attempts := some r.attempts }
        let store2 :=
          match key with
          | some k => markCompleted now store k 200 body
          | none => store
        { statusCode := 200, body := some body, queue := q2, store := store2,
          downstreamAttempts := r.attempts, enqueued := true }
      else
        let body : RelayBody α :=
          { success := false, data := none, error := r.error,
            attempts := some r.attempts }
        { statusCode := 502, body := some body, queue := q2, store := store,
          downstreamAttempts := r.attempts, enqueued := true }

/-- The POST /relay handler. When an idempotency key is supplied, first
consult the store: a completed record answers with the cached status code
(`httpStatusCode || 200`) and cached body immediately; an in-flight record
answers 409; otherwise mark the key in-flight and proceed to admission and
processing. -/
def relay (now ttl maxRetries : Nat) (key : Option String) (payload : α)
    (fnOf : α → Nat → Except String α) (q : BoundedQueue (RelayRequest α))
    (store : Store (RelayBody α)) : RelayOutcome α :=
  match key with
  | none => relayProcess now maxRetries none payload fnOf q store
  | some k =>
    match storeGet now ttl store k with
    | (some cached, store1) =>
      if cached.status = .completed then
        { statusCode := cached.httpStatusCode.getD 200, body := cached.data,
          queue := q, store := store1, downstreamAttempts := 0, enqueued := false }
      else
        { statusCode := 409, body := some conflictBody, queue := q,
          store := store1, downstreamAttempts := 0, enqueued := false }
    | (none, store1) =>
      relayProcess now maxRetries (some k) payload fnOf q (markInFlight now store1 k)

/-- Completed record first seen at time 0, caching status 200 and result 5. -/
def sampleCompletedRecord : IdempotencyData Nat :=
  { data := some 5, cachedTime := 0, httpStatusCode := some 200,
    status := .completed }

/-- One-record store holding `sampleCompletedRecord` under key "k". -/
def sampleCompletedStore : Store Nat := [("k", sampleCompletedRecord)]

/-- Live in-flight record first seen at time 45. -/
def sampleInFlightRecord : IdempotencyData Nat :=
  { data := none, cachedTime := 45, httpStatusCode := none,
    status := .in_flight }

/-- Two-record store: key "a" completed and first seen at 0 (expired by
now = 50 with TTL 10), key "b" in flight and first seen at 45 (live). -/
def sampleMixedStore : Store Nat :=
  [("a", { data := some 1, cachedTime := 0, httpStatusCode := some 200,
           status := .completed }),
   ("b", sampleInFlightRecord)]

/-- Cached relay response body used in orchestration examples. -/
def sampleCachedBody : RelayBody Nat :=
  { success := true, data := some 42, error := none, attempts := some 1 }

/-- Relay-level store holding a completed record for key "k1" (first seen
at time 0) whose cached response is `sampleCachedBody` with status 200. -/
def sampleRelayStore : Store (RelayBody Nat) :=
  [("k1", { data := some sampleCachedBody, cachedTime := 0,
            httpStatusCode := some 200, status := .completed })]

/-- Queue of capacity 2 holding a single item (payload 1, enqueued at 0). -/
def sampleHalfQueue : BoundedQueue Nat :=
  { queue := [{ data := 1, enqueuedAt := 0 }], capacity := 2 }

/-! Basic lemmas about the store embedding. -/

theorem storeKeys_cons (e : String × IdempotencyData α) (rest : Store α) :
    storeKeys (e :: rest) = e.1 :: storeKeys rest := rfl

theorem storeWF_cons {e : String × IdempotencyData α} {rest : Store α} :
    storeWF (e :: rest) ↔ e.1 ∉ storeKeys rest ∧ storeWF rest := by
  rw [storeWF, storeKeys_cons, List.nodup_cons]
  exact Iff.rfl

theorem mem_storeKeys_of_storeLookup {s : Store α} {k : String}
    {v : IdempotencyData α} (h : storeLookup s k = some v) : k ∈ storeKeys s := by
  induction s with
  | nil => simp [storeLookup] at h
  | cons e rest ih =>
    rw [storeKeys_cons]
    by_cases he : e.1 = k
    · exact he ▸ List.mem_cons_self _ _
    · simp [storeLookup, he] at h
      exact List.mem_cons_of_mem _ (ih h)

theorem storeLookup_storeSet_self (s : Store α) (k : String)
    (d : IdempotencyData α) : storeLookup (storeSet s k d) k = some d := by
  induction s with
  | nil => simp [storeSet, storeLookup]
  | cons e rest ih =>
    by_cases he : e.1 = k
    · simp [storeSet, he, storeLookup]
    · simp [storeSet, he, storeLookup, ih]

theorem storeLookup_storeSet_other (s : Store α) (k k2 : String)
    (d : IdempotencyData α) (h : k2 ≠ k) :
    storeLookup (storeSet s k d) k2 = storeLookup s k2 := by
  have hne : k ≠ k2 := Ne.symm h
  induction s with
  | nil => simp [storeSet, storeLookup, hne]
  | cons e rest ih =>
    by_cases he : e.1 = k
    · subst he
      simp [storeSet, storeLookup, hne]
    · simp [storeSet, he, storeLookup, ih]

theorem storeLookup_storeDelete_self (s : Store α) (k : String) :
    storeLookup (storeDelete s k) k = none := by
  induction s with
  | nil => simp [storeDelete, storeLookup]
  | cons e rest ih =>
    by_cases he : e.1 = k
    · simp [storeDelete, he, ih]
    · simp [storeDelete, he, storeLookup, ih]

theorem storeLookup_storeDelete_other (s : Store α) (k k2 : String)
    (h : k2 ≠ k) :
    storeLookup (storeDelete s k) k2 = storeLookup s k2 := by
  have hne : k ≠ k2 := Ne.symm h
  induction s with
  | nil => rfl
  | cons e rest ih =>
    by_cases he : e.1 = k
    · subst he
      simp [storeDelete, storeLookup, hne, ih]
    · simp [storeDelete, he, storeLookup, ih]

theorem storeDelete_of_not_mem {s : Store α} {k : String}
    (h : k ∉ storeKeys s) : storeDelete s k = s := by
  induction s with
  | nil => rfl
  | cons e rest ih =>
    rw [storeKeys_cons] at h
    simp only [List.mem_cons, not_or] at h
    simp [storeDelete, Ne.symm h.1, ih h.2]

theorem length_storeDelete_present {s : Store α} {k : String}
    {v : IdempotencyData α} (wf : storeWF s) (h : storeLookup s k = some v) :
    (storeDelete s k).length + 1 = s.length := by
  induction s with
  | nil => simp [storeLookup] at h
  | cons e rest ih =>
    obtain ⟨hnm, hwf⟩ := storeWF_cons.1 wf
    by_cases he : e.1 = k
    · subst he
      simp [storeDelete, storeDelete_of_not_mem hnm]
    · simp [storeLookup, he] at h
      simp [storeDelete, he, ih hwf h]

theorem storeLookup_storeCleanup {now ttl : Nat} {s : Store α} {k : String}
    {v : IdempotencyData α} (wf : storeWF s)
    (h : storeLookup (storeCleanup now ttl s) k = some v) :
    storeLookup s k = some v := by
  induction s with
  | nil => simp [storeCleanup, storeLookup] at h
  | cons e rest ih =>
    obtain ⟨hnm, hwf⟩ := storeWF_cons.1 wf
    by_cases hexp : isExpired now ttl e.2
    · simp [storeCleanup, hexp] at h
      have hk := mem_storeKeys_of_storeLookup (ih hwf h)
      have hne : e.1 ≠ k := fun hh => hnm (hh ▸ hk)
      simp [storeLookup, hne]
      exact ih hwf h
    · simp [storeCleanup, hexp] at h
      by_cases he : e.1 = k
      · simp [storeLookup, he] at h ⊢
        exact h
      · simp [storeLookup, he] at h ⊢
        exact ih hwf h

theorem length_storeCleanup (now ttl : Nat) (s : Store α) :
    (storeCleanup now ttl s).length = countLive now ttl s := by
  induction s with
  | nil => rfl
  | cons e rest ih =>
    by_cases hexp : isExpired now ttl e.2
    · simp [storeCleanup, countLive, hexp, ih]
    · simp [storeCleanup, countLive, hexp, ih]

theorem countLive_add_countExpired (now ttl : Nat) (s : Store α) :
    countLive now ttl s + countExpired now ttl s = s.length := by
  induction s with
  | nil => rfl
  | cons e rest ih =>
    by_cases hexp : isExpired now ttl e.2
    · simp [countLive, countExpired, hexp]
      omega
    · simp [countLive, countExpired, hexp]
      omega

theorem countExpired_pos {now ttl : Nat} {s : Store α} {k : String}
    {v : IdempotencyData α} (h : storeLookup s k = some v)
    (hexp : isExpired now ttl v = true) : 1 ≤ countExpired now ttl s := by
  induction s with
  | nil => simp [storeLookup] at h
  | cons e rest ih =>
    by_cases he : e.1 = k
    · simp [storeLookup, he] at h
      subst h
      simp [countExpired, hexp]
    · simp [storeLookup, he] at h
      by_cases h2 : isExpired now ttl e.2
      · simp [countExpired, h2]
      · simp [countExpired, h2]
        exact ih h

/-! Lemmas about the retry executor and the bounded queue. -/

theorem retryLoop_all_fail (fn : Nat → Except String α) (errs : Nat → String)
    (h : ∀ i, fn i = .error (errs i)) (mr : Nat) :
    ∀ d a, mr - a = d → a ≤ mr →
      retryLoop fn mr a =
        { success := false, data := none, error := some (errs mr),
          attempts := mr + 1 } := by
  intro d
  induction d with
  | zero =>
    intro a hd ha
    have : a = mr := by omega
    subst this
    rw [retryLoop, h a]
    simp
  | succ n ih =>
    intro a hd ha
    have hlt : a < mr := by omega
    rw [retryLoop, h a]
    simp only [hlt, if_true]
    exact ih (a + 1) (by omega) (by omega)

theorem retryTrace_all_fail (fn : Nat → Except String α) (errs : Nat → String)
    (h : ∀ i, fn i = .error (errs i)) (mr : Nat) :
    ∀ d a, mr - a = d → a ≤ mr →
      retryTrace fn mr a = List.range' a (mr + 1 - a) := by
  intro d
  induction d with
  | zero =>
    intro a hd ha
    have : a = mr := by omega
    subst this
    rw [retryTrace, h a]
    have h1 : a + 1 - a = 1 := by omega
    simp [h1]
  | succ n ih =>
    intro a hd ha
    have hlt : a < mr := by omega
    rw [retryTrace, h a]
    simp only [hlt, if_true]
    rw [ih (a + 1) (by omega) (by omega)]
    have h1 : mr + 1 - a = (mr + 1 - (a + 1)) + 1 := by omega
    rw [h1, List.range'_succ]

theorem retryWithBackoff_all_fail (fn : Nat → Except String α)
    (errs : Nat → String) (h : ∀ i, fn i = .error (errs i)) (mr : Nat) :
    retryWithBackoff fn mr =
      { success := false, data := none, error := some (errs mr),
        attempts := mr + 1 } :=
  retryLoop_all_fail fn errs h mr mr 0 rfl (Nat.zero_le mr)

theorem enqueueList_ok (now : Nat) (items : List α) :
    ∀ q : BoundedQueue α, q.queue.length + items.length ≤ q.capacity →
      enqueueList now q items =
        (List.replicate items.length true,
         { queue := q.queue ++ items.map
             (fun x => { data := x, enqueuedAt := now }),
           capacity := q.capacity }) := by
  induction items with
  | nil =>
    intro q h
    simp [enqueueList]
  | cons x xs ih =>
    intro q h
    have hfull : q.isFull = false := by
      simp only [BoundedQueue.isFull, decide_eq_false_iff_not, Nat.not_le]
      simp at h
      omega
    have hrec := ih { q with queue := q.queue ++ [{ data := x, enqueuedAt := now }] }
      (by simp at h ⊢; omega)
    simp [enqueueList, BoundedQueue.enqueue, hfull, hrec, List.replicate_succ]

theorem dequeueN_eq_take (n : Nat) :
    ∀ q : BoundedQueue α, dequeueN n q = q.queue.take n := by
  induction n with
  | zero => intro q; simp [dequeueN]
  | succ n ih =>
    intro q
    match hq : q.queue with
    | [] => simp [dequeueN, BoundedQueue.dequeue, hq]
    | x :: rest =>
      simp [dequeueN, BoundedQueue.dequeue, hq, ih]

/-! Claim theorems. -/

/-- C2: for every N ≥ 0 and every operation that fails on every invocation,
`retryWithBackoff` with `maxRetries = N` invokes the operation exactly N+1
times (at attempt indices 0, 1, ..., N, each once) and returns a result with
`success = false`, `attempts = N + 1`, and `error` equal to the failure
reason of the last, (N+1)-th, invocation. -/
theorem retry_always_failing_exhausts (N : Nat) (errs : Nat → String)
    (fn : Nat → Except String α) (h : ∀ i, fn i = .error (errs i)) :
    retryWithBackoff fn N =
      { success := false, data := none, error := some (errs N),
        attempts := N + 1 }
    ∧ retryTrace fn N 0 = List.range (N + 1) := by
  refine ⟨retryWithBackoff_all_fail fn errs h N, ?_⟩
  rw [retryTrace_all_fail fn errs h N N 0 rfl (Nat.zero_le N),
    List.range_eq_range']
  simp

/-- Witness for C2: a constantly failing operation with maxRetries = 2 is
invoked at attempts 0, 1, 2 and ends with success = false, attempts = 3. -/
theorem retry_always_failing_exhausts_witness :
    retryWithBackoff (fun _ => (Except.error "boom" : Except String Nat)) 2 =
      { success := false, data := none, error := some "boom", attempts := 3 }
    ∧ retryTrace (fun _ => (Except.error "boom" : Except String Nat)) 2 0 =
        [0, 1, 2] := by
  have h := retry_always_failing_exhausts (α := Nat) 2 (fun _ => "boom")
    (fun _ => Except.error "boom") (fun _ => rfl)
  exact ⟨h.1, by rw [h.2]; rfl⟩

/-- C6: a record looked up strictly after its TTL window
(`now > first-seen-time + TTL`) is reported absent and physically removed,
and a subsequent markInFlight for the key creates a fresh in-flight record
whose first-seen-time is the (new) current time. -/
theorem expired_get_absent_then_fresh_window (s : Store α) (k : String)
    (r : IdempotencyData α) (now ttl now2 : Nat)
    (h : storeLookup s k = some r) (hexp : now > r.cachedTime + ttl) :
    storeGet now ttl s k = (none, storeDelete s k)
    ∧ storeLookup (storeDelete s k) k = none
    ∧ storeLookup (markInFlight now2 (storeDelete s k) k) k =
        some { data := none, cachedTime := now2, httpStatusCode := none,
               status := .in_flight } := by
  refine ⟨?_, storeLookup_storeDelete_self s k, ?_⟩
  · simp [storeGet, h, isExpired, hexp]
  · simp [markInFlight, storeLookup_storeSet_self]

/-- Witness for C6 on a one-entry store whose record (first seen at time 0,
TTL 10) is looked up at time 11 and re-marked in flight at time 12. -/
theorem expired_get_absent_then_fresh_window_witness :
    storeGet 11 10 sampleCompletedStore "k" =
      (none, storeDelete sampleCompletedStore "k")
    ∧ storeLookup (storeDelete sampleCompletedStore "k") "k" = none
    ∧ storeLookup (markInFlight 12 (storeDelete sampleCompletedStore "k") "k")
        "k" =
        some { data := none, cachedTime := 12, httpStatusCode := none,
               status := .in_flight } :=
  expired_get_absent_then_fresh_window sampleCompletedStore "k"
    sampleCompletedRecord 11 10 12 rfl (by decide)

/-- C7: markCompleted on a key with an existing raw record updates it to
completed with the given status code and result while preserving its
first-seen-time; on a key with no record it creates a completed record
whose first-seen-time is the current time. -/
theorem markCompleted_preserves_first_seen (s : Store α) (k : String)
    (now code : Nat) (d : α) :
    storeLookup (markCompleted now s k code d) k =
      some { data := some d,
             cachedTime := match storeLookup s k with
                           | some old => old.cachedTime
                           | none => now,
             httpStatusCode := some code, status := .completed } := by
  unfold markCompleted
  cases h : storeLookup s k with
  | none => simp [h, storeLookup_storeSet_self]
  | some old => simp [h, storeLookup_storeSet_self]

/-- C8: for every attempt index, positive initial and maximum delays, and
every random draw in [0, 1), the jittered backoff delay lies within
[0, min(maxDelay, initialDelay * 2 ^ attempt)]. -/
theorem jitter_delay_within_bounds (attempt : Nat)
    (initialDelayMs maxDelayMs rand : ℚ) (hinit : 0 < initialDelayMs)
    (hmax : 0 < maxDelayMs) (hr0 : 0 ≤ rand) (hr1 : rand < 1) :
    0 ≤ calculateDelayWithJitter attempt initialDelayMs maxDelayMs rand
    ∧ ((calculateDelayWithJitter attempt initialDelayMs maxDelayMs rand : ℚ)
        ≤ min maxDelayMs (initialDelayMs * 2 ^ attempt)) := by
  have hexp : (0 : ℚ) < initialDelayMs * 2 ^ attempt := by positivity
  have hcap : (0 : ℚ) ≤ min (initialDelayMs * 2 ^ attempt) maxDelayMs :=
    le_min hexp.le hmax.le
  unfold calculateDelayWithJitter
  refine ⟨Int.floor_nonneg.2 (mul_nonneg hr0 hcap), ?_⟩
  calc ((⌊rand * min (initialDelayMs * 2 ^ attempt) maxDelayMs⌋ : ℚ))
      ≤ rand * min (initialDelayMs * 2 ^ attempt) maxDelayMs :=
        Int.floor_le _
    _ ≤ 1 * min (initialDelayMs * 2 ^ attempt) maxDelayMs :=
        mul_le_mul_of_nonneg_right hr1.le hcap
    _ = min (initialDelayMs * 2 ^ attempt) maxDelayMs := one_mul _
    _ = min maxDelayMs (initialDelayMs * 2 ^ attempt) := min_comm _ _

/-- Witness for C8 at attempt 1, initialDelay 100, maxDelay 10000 and a
random draw of 1/2 (the computed delay is 100). -/
theorem jitter_delay_within_bounds_witness :
    0 ≤ calculateDelayWithJitter 1 100 10000 (1 / 2)
    ∧ ((calculateDelayWithJitter 1 100 10000 (1 / 2) : ℚ)
        ≤ min 10000 (100 * 2 ^ 1)) :=
  jitter_delay_within_bounds 1 100 10000 (1 / 2) (by norm_num) (by norm_num)
    (by norm_num) (by norm_num)

/-- C10: size() counts every stored entry including already-expired ones
(size is the number of live entries plus the number of expired entries, and
an expired entry still contributes); a get on the expired key removes
exactly that one entry from the count, and a cleanup pass leaves exactly
the live entries. -/
theorem size_counts_expired_entries (s : Store α) (now ttl : Nat)
    (k : String) (r : IdempotencyData α) (wf : storeWF s)
    (h : storeLookup s k = some r) (hexp : now > r.cachedTime + ttl) :
    storeSize s = countLive now ttl s + countExpired now ttl s
    ∧ 1 ≤ countExpired now ttl s
    ∧ storeSize ((storeGet now ttl s k).2) + 1 = storeSize s
    ∧ storeSize (storeCleanup now ttl s) = countLive now ttl s := by
  have hexpb : isExpired now ttl r = true := by
    simp [isExpired]
    omega
  refine ⟨(countLive_add_countExpired now ttl s).symm,
    countExpired_pos h hexpb, ?_, length_storeCleanup now ttl s⟩
  have hdel : (storeGet now ttl s k).2 = storeDelete s k := by
    simp [storeGet, h, hexpb]
  rw [hdel]
  exact length_storeDelete_present wf h

/-- Witness for C10 on a two-entry store (key "a" expired at now = 50 with
TTL 10, key "b" live): size is live + expired, the expired entry is counted,
a get on the expired key brings the size down by one, and cleanup leaves
exactly the live entries. -/
theorem size_counts_expired_entries_witness :
    storeSize sampleMixedStore =
      countLive 50 10 sampleMixedStore + countExpired 50 10 sampleMixedStore
    ∧ 1 ≤ countExpired 50 10 sampleMixedStore
    ∧ storeSize ((storeGet 50 10 sampleMixedStore "a").2) + 1 =
        storeSize sampleMixedStore
    ∧ storeSize (storeCleanup 50 10 sampleMixedStore) =
        countLive 50 10 sampleMixedStore :=
  size_counts_expired_entries sampleMixedStore 50 10 "a"
    { data := some 1, cachedTime := 0, httpStatusCode := some 200,
      status := .completed }
    (by unfold storeWF; decide) rfl (by decide)

/-- C5: starting from an empty BoundedQueue of any capacity c > 0, each of
the first c enqueue calls returns true, the (c+1)-th enqueue returns false
and leaves the queue unchanged, c successive dequeue calls return the
enqueued items in FIFO order, and the queue length never exceeds c after
any prefix of the enqueue calls. -/
theorem bounded_queue_capacity_and_fifo (c : Nat) (hc : 0 < c)
    (items : List α) (hlen : items.length = c) (x : α) (now : Nat)
    (q0 : BoundedQueue α) (hmk : mkBoundedQueue α c = .ok q0) :
    (enqueueList now q0 items).1 = List.replicate c true
    ∧ (enqueueList now q0 items).2.enqueue now x =
        (false, (enqueueList now q0 items).2)
    ∧ (dequeueN c (enqueueList now q0 items).2).map QueueItem.data = items
    ∧ ∀ n, ((enqueueList now q0 (items.take n)).2).size ≤ c := by
  have hcle : ¬ c ≤ 0 := by omega
  have hq0 : q0 = { queue := [], capacity := c } := by
    unfold mkBoundedQueue at hmk
    simp [hcle] at hmk
    exact hmk.symm
  subst hq0
  have hfin := enqueueList_ok now items { queue := [], capacity := c }
    (by simp [hlen])
  have hmaplen :
      (items.map (fun y => ({ data := y, enqueuedAt := now } :
        QueueItem α))).length = c := by
    simp [hlen]
  refine ⟨?_, ?_, ?_, ?_⟩
  · rw [hfin, hlen]
  · rw [hfin]
    simp [BoundedQueue.enqueue, BoundedQueue.isFull, hmaplen]
  · rw [hfin]
    simp only [dequeueN_eq_take, List.nil_append]
    rw [List.take_of_length_le (le_of_eq hmaplen)]
    simp [Function.comp_def]
  · intro n
    have h2 := enqueueList_ok now (items.take n) { queue := [], capacity := c }
      (by simp [hlen])
    rw [h2]
    simp [BoundedQueue.size, hlen]

/-- Witness for C5 at capacity 2 with items [10, 20], extra item 30: both
enqueues return true, the third returns false leaving the queue unchanged,
two dequeues return 10 then 20, and no prefix exceeds length 2. -/
theorem bounded_queue_capacity_and_fifo_witness :
    (enqueueList 0 ({ queue := [], capacity := 2 } : BoundedQueue Nat)
        [10, 20]).1 = List.replicate 2 true
    ∧ (enqueueList 0 ({ queue := [], capacity := 2 } : BoundedQueue Nat)
        [10, 20]).2.enqueue 0 30 =
        (false, (enqueueList 0 ({ queue := [], capacity := 2 } :
          BoundedQueue Nat) [10, 20]).2)
    ∧ (dequeueN 2 (enqueueList 0 ({ queue := [], capacity := 2 } :
        BoundedQueue Nat) [10, 20]).2).map QueueItem.data = [10, 20]
    ∧ ∀ n, ((enqueueList 0 ({ queue := [], capacity := 2 } :
        BoundedQueue Nat) ([10, 20].take n)).2).size ≤ 2 :=
  bounded_queue_capacity_and_fifo 2 (by decide) [10, 20] rfl 30 0
    { queue := [], capacity := 2 } rfl

/-- C9 counterexample: for a queue of capacity 2 holding one item, the
utilization query returns 50, while size divided by capacity is 1/2; the
two differ, so the query does not return the plain ratio. -/
theorem utilization_differs_from_plain_ratio :
    sampleHalfQueue.getUtilization = 50
    ∧ (sampleHalfQueue.size : ℚ) / (sampleHalfQueue.getCapacity : ℚ) = 1 / 2
    ∧ (50 : ℚ) ≠ 1 / 2 := by
  refine ⟨?_, ?_, by norm_num⟩
  · norm_num [BoundedQueue.getUtilization, sampleHalfQueue]
  · norm_num [BoundedQueue.size, BoundedQueue.getCapacity, sampleHalfQueue]

/-- C9 (amended): the utilization query returns size divided by capacity
expressed as a percentage, (size / capacity) * 100; in particular, for a
queue of capacity 2 after enqueuing 3 items (the first two accepted, the
third rejected), size() = 2 and utilization() = 100. -/
theorem utilization_is_ratio_times_hundred (q : BoundedQueue α) :
    q.getUtilization = ((q.size : ℚ) / (q.getCapacity : ℚ)) * 100
    ∧ (enqueueList 0 ({ queue := [], capacity := 2 } : BoundedQueue Nat)
        [1, 2, 3]).1 = [true, true, false]
    ∧ ((enqueueList 0 ({ queue := [], capacity := 2 } : BoundedQueue Nat)
        [1, 2, 3]).2).size = 2
    ∧ ((enqueueList 0 ({ queue := [], capacity := 2 } : BoundedQueue Nat)
        [1, 2, 3]).2).getUtilization = 100 := by
  refine ⟨rfl, by decide, by decide, ?_⟩
  norm_num [BoundedQueue.getUtilization, enqueueList, BoundedQueue.enqueue,
    BoundedQueue.isFull]

/-- C1 counterexample: `sampleCompletedStore` holds a completed record for
key "k" first seen at time 0, yet the single store operation markInFlight
at time 5 yields a state where the record for "k" has status in_flight with
a later first-seen-time (5 ≥ 0), a transition out of completed. -/
theorem completed_overwritten_by_markInFlight :
    storeLookup sampleCompletedStore "k" = some sampleCompletedRecord
    ∧ sampleCompletedRecord.status = .completed
    ∧ storeLookup (applyStoreOp (StoreOp.markInFlight 5 "k")
        sampleCompletedStore) "k" =
        some { data := none, cachedTime := 5, httpStatusCode := none,
               status := .in_flight }
    ∧ IdempotencyStatus.in_flight ≠ IdempotencyStatus.completed
    ∧ sampleCompletedRecord.cachedTime ≤ 5 := by
  refine ⟨rfl, rfl, by decide, by decide, by decide⟩

/-- C1 (amended): under the store operations that do not overwrite
(markCompleted, get, cleanup), a record whose status is completed never
transitions back to in_flight: on a well-formed store, whenever the key
still has a record after the operation, that record is completed and keeps
the original first-seen-time. The overwriting operations (markInFlight,
set) unconditionally replace the record — markInFlight installs a fresh
in-flight record with first-seen-time now — and are intended to be called
only after get has reported the key absent. -/
theorem completed_never_reverts_without_overwrite (s : Store α) (k : String)
    (r r2 : IdempotencyData α) (op : StoreOp α) (wf : storeWF s)
    (h : storeLookup s k = some r) (hc : r.status = .completed)
    (hop : op.isOverwrite = false)
    (h2 : storeLookup (applyStoreOp op s) k = some r2) :
    r2.status = .completed ∧ r2.cachedTime = r.cachedTime := by
  have same : ∀ r3 : IdempotencyData α, storeLookup s k = some r3 →
      r3.status = .completed ∧ r3.cachedTime = r.cachedTime := by
    intro r3 h3
    rw [h] at h3
    injection h3 with h4
    subst h4
    exact ⟨hc, rfl⟩
  cases op with
  | set k2 d => simp [StoreOp.isOverwrite] at hop
  | markInFlight now k2 => simp [StoreOp.isOverwrite] at hop
  | get now ttl k2 =>
    unfold applyStoreOp at h2
    cases hl : storeLookup s k2 with
    | none =>
      simp [storeGet, hl] at h2
      exact same r2 h2
    | some d =>
      by_cases hexp : isExpired now ttl d
      · simp [storeGet, hl, hexp] at h2
        by_cases hk : k2 = k
        · subst hk
          rw [storeLookup_storeDelete_self] at h2
          simp at h2
        · rw [storeLookup_storeDelete_other s k2 k (Ne.symm hk)] at h2
          exact same r2 h2
      · simp [storeGet, hl, hexp] at h2
        exact same r2 h2
  | markCompleted now k2 code d =>
    cases hl : storeLookup s k2 with
    | none =>
      simp only [applyStoreOp, markCompleted, hl] at h2
      by_cases hk : k2 = k
      · subst hk
        rw [h] at hl
        cases hl
      · rw [storeLookup_storeSet_other s k2 k _ (Ne.symm hk)] at h2
        exact same r2 h2
    | some old =>
      simp only [applyStoreOp, markCompleted, hl] at h2
      by_cases hk : k2 = k
      · subst hk
        rw [h] at hl
        injection hl with h5
        subst h5
        rw [storeLookup_storeSet_self] at h2
        injection h2 with h6
        subst h6
        exact ⟨rfl, rfl⟩
      · rw [storeLookup_storeSet_other s k2 k _ (Ne.symm hk)] at h2
        exact same r2 h2
  | cleanup now ttl =>
    unfold applyStoreOp at h2
    exact same r2 (storeLookup_storeCleanup wf h2)

/-- Witness for C1 (amended): on `sampleCompletedStore` the cleanup
operation at time 3 (TTL 10) keeps the completed record for "k" completed
with its original first-seen-time. -/
theorem completed_never_reverts_without_overwrite_witness :
    sampleCompletedRecord.status = .completed
    ∧ sampleCompletedRecord.cachedTime = sampleCompletedRecord.cachedTime :=
  completed_never_reverts_without_overwrite sampleCompletedStore "k"
    sampleCompletedRecord sampleCompletedRecord (StoreOp.cleanup 3 10)
    (by unfold storeWF; decide) rfl rfl rfl (by decide)

/-- C3: a relay request carrying an idempotency key whose store record
exists, is unexpired, and is completed answers immediately with the cached
status code and cached result, leaves both the queue and the store
unchanged, performs no enqueue and makes no downstream (retry) attempt. -/
theorem relay_cache_hit_no_side_effects (now ttl mr : Nat) (k : String)
    (payload : α) (fnOf : α → Nat → Except String α)
    (q : BoundedQueue (RelayRequest α)) (s : Store (RelayBody α))
    (rec : IdempotencyData (RelayBody α))
    (h : storeLookup s k = some rec) (hc : rec.status = .completed)
    (hlive : now ≤ rec.cachedTime + ttl) :
    relay now ttl mr (some k) payload fnOf q s =
      { statusCode := rec.httpStatusCode.getD 200, body := rec.data,
        queue := q, store := s, downstreamAttempts := 0,
        enqueued := false } := by
  have hexp : isExpired now ttl rec = false := by
    simp [isExpired]
    omega
  simp [relay, storeGet, h, hexp, hc]

/-- Witness for C3: replaying key "k1" against `sampleRelayStore` at time 1
(TTL 10) returns the cached 200 response with the cached body and touches
neither the queue, the store, nor the downstream. -/
theorem relay_cache_hit_no_side_effects_witness :
    relay 1 10 3 (some "k1") (0 : Nat) (fun _ _ => Except.ok 0)
      { queue := [], capacity := 2 } sampleRelayStore =
      { statusCode := 200, body := some sampleCachedBody,
        queue := { queue := [], capacity := 2 }, store := sampleRelayStore,
        downstreamAttempts := 0, enqueued := false } :=
  relay_cache_hit_no_side_effects 1 10 3 "k1" 0 (fun _ _ => Except.ok 0)
    { queue := [], capacity := 2 } sampleRelayStore
    { data := some sampleCachedBody, cachedTime := 0,
      httpStatusCode := some 200, status := .completed }
    rfl rfl (by decide)

/-- C4: when the retry-guarded downstream call of a keyed relay request
exhausts all attempts (succeeded = false), the handler answers 502 with the
last failure reason and attempt count, and performs no store mutation after
the admission-time markInFlight: the final store is exactly the store as of
admission, so the key still maps to an in-flight record first seen at the
request's arrival time. -/
theorem relay_exhausted_leaves_in_flight (now ttl mr : Nat) (k : String)
    (payload : α) (errs : Nat → String) (fnOf : α → Nat → Except String α)
    (hfail : ∀ a i, fnOf a i = .error (errs i))
    (q : BoundedQueue (RelayRequest α)) (s s1 : Store (RelayBody α))
    (hget : storeGet now ttl s k = (none, s1))
    (hroom : q.queue.length < q.capacity) :
    (relay now ttl mr (some k) payload fnOf q s).statusCode = 502
    ∧ (relay now ttl mr (some k) payload fnOf q s).store =
        markInFlight now s1 k
    ∧ storeLookup (relay now ttl mr (some k) payload fnOf q s).store k =
        some { data := none, cachedTime := now, httpStatusCode := none,
               status := .in_flight }
    ∧ (relay now ttl mr (some k) payload fnOf q s).body =
        some { success := false, data := none, error := some (errs mr),
               attempts := some (mr + 1) }
    ∧ (relay now ttl mr (some k) payload fnOf q s).downstreamAttempts =
        mr + 1 := by
  have hrw : relay now ttl mr (some k) payload fnOf q s
      = relayProcess now mr (some k) payload fnOf q (markInFlight now s1 k) := by
    simp [relay, hget]
  have hfull : q.isFull = false := by
    simp only [BoundedQueue.isFull, decide_eq_false_iff_not, Nat.not_le]
    omega
  have hretry : ∀ a : α, retryWithBackoff (fnOf a) mr =
      { success := false, data := none, error := some (errs mr),
        attempts := mr + 1 } :=
    fun a => retryWithBackoff_all_fail (fnOf a) errs (hfail a) mr
  rw [hrw]
  cases hq : q.queue with
  | nil =>
    simp [relayProcess, BoundedQueue.enqueue, hfull, hq, BoundedQueue.dequeue,
      hretry, markInFlight, storeLookup_storeSet_self]
  | cons y rest =>
    simp [relayProcess, BoundedQueue.enqueue, hfull, hq, BoundedQueue.dequeue,
      hretry, markInFlight, storeLookup_storeSet_self]

/-- Witness for C4: a fresh key "k1" on an empty store, queue capacity 2,
maxRetries 2, and a downstream failing every attempt with "down": the
handler answers 502 after 3 attempts and the store still holds the
in-flight record first seen at time 1. -/
theorem relay_exhausted_leaves_in_flight_witness :
    (relay 1 10 2 (some "k1") (5 : Nat) (fun _ _ => Except.error "down")
      { queue := [], capacity := 2 } []).statusCode = 502
    ∧ (relay 1 10 2 (some "k1") (5 : Nat) (fun _ _ => Except.error "down")
        { queue := [], capacity := 2 } []).store = markInFlight 1 [] "k1"
    ∧ storeLookup (relay 1 10 2 (some "k1") (5 : Nat)
        (fun _ _ => Except.error "down")
        { queue := [], capacity := 2 } []).store "k1" =
        some { data := none, cachedTime := 1, httpStatusCode := none,
               status := .in_flight }
    ∧ (relay 1 10 2 (some "k1") (5 : Nat) (fun _ _ => Except.error "down")
        { queue := [], capacity := 2 } []).body =
        some { success := false, data := none, error := some "down",
               attempts := some 3 }
    ∧ (relay 1 10 2 (some "k1") (5 : Nat) (fun _ _ => Except.error "down")
        { queue := [], capacity := 2 } []).downstreamAttempts = 3 :=
  relay_exhausted_leaves_in_flight 1 10 2 "k1" 5 (fun _ => "down")
    (fun _ _ => Except.error "down") (fun _ _ => rfl)
    { queue := [], capacity := 2 } [] [] rfl (by decide)

end ResilientRelay
